import Mathlib

/-!
Verification development for the SaaS license-verification and API-federation
subsystem of the admin panel (license key issuance/validation, domain-binding
enforcement, subscription-expiry handling, HMAC-authenticated tenant API calls).

Sources embedded:
  * `src/app/api/saas/verify-license/route.ts` (`extractDomain`, `POST`, `GET`)
  * `src/app/api/saas/check-by-domain/route.ts` (`POST`)
  * `src/app/api/saas/clients/[id]/toggle-status/route.ts` (`POST`)
  * `src/app/api/saas/clients/[id]/regenerate-license/route.ts` (`generateLicenseKey`)
  * `src/lib/tenant-api.ts` (`createHmacSignature`, `fetchTenantUsers`)

Database rows are embedded as a `List Tenant` store; handlers become pure
functions from (store, now, request fields) to (response, new store, log
entries appended).  JavaScript `string | null` fields become `Option String`,
with JS falsiness (`null` or `""`) made explicit.  Timestamps are `Int`
epoch milliseconds.
-/

namespace SaasAdmin

/-- One row of the `saasClients` table (the fields the embedded handlers
read or write). -/
structure Tenant where
  id : String
  companyName : String
  websiteDomain : String
  licenseKey : String
  status : String
  subscriptionType : String
  subscriptionStatus : String
  subscriptionEndDate : Option Int
  lastAccessDate : Option Int
  lastVerificationDate : Option Int
  licenseVerified : String
  notes : Option String
  updatedAt : Int
deriving Repr, DecidableEq

/-- One row of the `licenseVerificationLogs` table, as inserted by the
`POST /verify-license` handler. -/
structure LogEntry where
  clientId : String
  licenseKey : String
  requestDomain : String
  requestIp : String
  userAgent : String
  verificationStatus : String
  errorMessage : Option String
  responseTime : Int
deriving Repr, DecidableEq

/-- JS falsiness of an optional string field (`null`/absent or `""`). -/
def falsyStr : Option String → Bool
  | none => true
  | some s => s.data.isEmpty

/-- Structural prefix test on character lists (kernel-reducible stand-in for
`String.prototype.startsWith`, which is case-sensitive). -/
def isPrefixChars : List Char → List Char → Bool
  | [], _ => true
  | _ :: _, [] => false
  | a :: as, b :: bs => a = b && isPrefixChars as bs

/-- ASCII lowercasing of one character (what both `String.prototype.toLowerCase`
and URL host normalization do on the ASCII hostnames this system handles). -/
def lowerChar (c : Char) : Char :=
  if 65 ≤ c.toNat ∧ c.toNat ≤ 90 then Char.ofNat (c.toNat + 32) else c

/-- Lowercase a string (ASCII). -/
def lowerStr (s : String) : String := String.mk (s.data.map lowerChar)

/-! ## Domain normalizer

`extractDomain` (verify-license/route.ts lines 20-27 and the identical copy in
check-by-domain/route.ts) calls the platform `URL` constructor and its
`hostname` accessor.  `urlHostname` below models the fragment of the WHATWG URL
parser those platform calls perform: scheme parsing, the special-scheme
authority rules for `http`/`https` (leading-slash skipping, userinfo at `@`,
host up to `:`/end of authority, numeric-or-empty port, non-empty host,
lowercased hostname), and the opaque-path rule (empty hostname) for other
schemes.  `none` models the constructor throwing. -/

/-- Characters legal inside a URL scheme after the first letter. -/
def schemeChar (c : Char) : Bool :=
  c.isAlphanum || c = '+' || c = '-' || c = '.'

/-- Split off a `scheme:` from the character list; `none` when the input has
no valid scheme (which makes the `URL` constructor throw). -/
def splitSchemeAux : List Char → List Char → Option (List Char × List Char)
  | _, [] => none
  | acc, ':' :: rest => some (acc.reverse, rest)
  | acc, c :: rest => if schemeChar c then splitSchemeAux (c :: acc) rest else none

def splitScheme : List Char → Option (List Char × List Char)
  | [] => none
  | c :: rest => if c.isAlpha then splitSchemeAux [c] rest else none

/-- Characters terminating the authority component. -/
def authEnd (c : Char) : Bool :=
  c = '/' || c = '\\' || c = '?' || c = '#'

/-- The host[:port] part of an authority: everything after the last `@`. -/
def afterLastAt (l : List Char) : List Char :=
  if l.contains '@' then ((l.reverse.takeWhile (fun c => c ≠ '@')).reverse) else l

/-- Code points that make a hostname invalid (beyond the delimiters already
split on). -/
def forbiddenHostChar (c : Char) : Bool :=
  c = ' ' || c = '<' || c = '>' || c = '[' || c = ']' || c = '^' || c = '|'

/-- Model of `new URL(s).hostname` for the fragment of inputs this codebase
produces; `none` models a thrown `TypeError`. -/
def urlHostname (s : String) : Option String :=
  match splitScheme s.data with
  | none => none
  | some (scheme, rest) =>
    let schemeL := scheme.map lowerChar
    if schemeL = "http".data ∨ schemeL = "https".data then
      -- special scheme: skip any leading slashes, then parse the authority
      let rest1 := rest.dropWhile (fun c => c = '/' || c = '\\')
      let auth := rest1.takeWhile (fun c => ¬ authEnd c)
      let hostPort := afterLastAt auth
      let host := hostPort.takeWhile (fun c => c ≠ ':')
      let port := (hostPort.dropWhile (fun c => c ≠ ':')).drop 1
      if host = [] then none
      else if ¬ port.all Char.isDigit then none
      else if host.any forbiddenHostChar then none
      else some (String.mk (host.map lowerChar))
    else
      match rest with
      | '/' :: '/' :: rest2 =>
        let auth := rest2.takeWhile (fun c => ¬ authEnd c)
        let hostPort := afterLastAt auth
        let host := hostPort.takeWhile (fun c => c ≠ ':')
        if host.any forbiddenHostChar then none
        else some (String.mk (host.map lowerChar))
      | _ => some ""   -- opaque path: hostname is empty

/-- `extractDomain` from verify-license/route.ts lines 20-27 (same helper is
duplicated in check-by-domain/route.ts): prepend `https://` unless the input
starts with `http` (case-sensitive, as `String.prototype.startsWith` is),
parse, and return the lowercased hostname; on a parse failure return the
input lowercased. -/
def extractDomain (url : String) : String :=
  match urlHostname (if isPrefixChars "http".data url.data then url
                     else "https://" ++ url) with
  | some h => lowerStr h
  | none => lowerStr url

example : extractDomain "foo.com" = "foo.com" := by decide
example : extractDomain "https://Foo.COM/" = "foo.com" := by decide
example : extractDomain "HTTPS://Foo.COM/" = "https" := by decide
example : extractDomain "shop.example.com" = "shop.example.com" := by decide
example : extractDomain "http://a.com:8080/x" = "a.com" := by decide
example : extractDomain "not a url" = "not a url" := by decide

/-! ## License verifier (`POST /verify-license` and `GET /verify-license`)

The handlers are embedded as pure functions.  The `db` is a `List Tenant`;
`select ... where eq(licenseKey, key) limit 1` is `List.find?`; an `update`
is a map over the list; each `insert` into `licenseVerificationLogs` appends
to the returned log list.  `now : Int` stands for every `Date.now()` /
`new Date()` taken during the request; `responseTime` is therefore 0. -/

/-- The JSON body of a `POST /verify-license` response, together with the
HTTP status it is sent with. -/
structure ClientProjection where
  id : String
  companyName : String
  subscriptionType : String
  subscriptionEndDate : Option Int
deriving Repr, DecidableEq

structure VerifyResponse where
  valid : Bool
  error : Option String
  client : Option ClientProjection
  httpStatus : Nat
deriving Repr, DecidableEq

/-- `db.select().from(saasClients).where(eq(saasClients.licenseKey, key)).limit(1)`. -/
def lookupByKey (store : List Tenant) (key : String) : Option Tenant :=
  store.find? (fun t => t.licenseKey == key)

/-- `db.update(saasClients).set(f).where(eq(saasClients.id, tid))`. -/
def updateTenant (store : List Tenant) (tid : String) (f : Tenant → Tenant) :
    List Tenant :=
  store.map (fun t => if t.id = tid then f t else t)

/-- The `.set({lastAccessDate, lastVerificationDate, updatedAt})` patch of the
success path (verify-license/route.ts lines 181-188). -/
def touchDates (now : Int) (t : Tenant) : Tenant :=
  { t with lastAccessDate := some now, lastVerificationDate := some now,
           updatedAt := now }

/-- The `.set({subscriptionStatus: 'expired', updatedAt})` patch of the expiry
path (verify-license/route.ts lines 153-159). -/
def expireSub (now : Int) (t : Tenant) : Tenant :=
  { t with subscriptionStatus := "expired", updatedAt := now }

/-- One `db.insert(licenseVerificationLogs).values({...})`. -/
def mkLog (cid key rdom ip ua vstatus : String) (emsg : Option String) : LogEntry :=
  { clientId := cid, licenseKey := key, requestDomain := rdom, requestIp := ip,
    userAgent := ua, verificationStatus := vstatus, errorMessage := emsg,
    responseTime := 0 }

/-- The success terminal of the POST pipeline (verify-license/route.ts lines
180-211): touch the dates, log `valid`, return the minimal projection. -/
def postSuccess (store : List Tenant) (now : Int)
    (key requestDomain clientIP userAgent : String) (c : Tenant) :
    VerifyResponse × List Tenant × List LogEntry :=
  ({ valid := true, error := none,
     client := some { id := c.id, companyName := c.companyName,
                      subscriptionType := c.subscriptionType,
                      subscriptionEndDate := c.subscriptionEndDate },
     httpStatus := 200 },
   updateTenant store c.id (touchDates now),
   [mkLog c.id key requestDomain clientIP userAgent "valid" none])

/-- `POST /verify-license` (verify-license/route.ts lines 36-221): the full
verification pipeline.  Returns (response, updated store, log rows inserted). -/
def postVerify (store : List Tenant) (now : Int) (licenseKey domain : Option String)
    (clientIP userAgent : String) : VerifyResponse × List Tenant × List LogEntry :=
  if falsyStr licenseKey || falsyStr domain then
    ({ valid := false, error := some "License key and domain are required",
       client := none, httpStatus := 400 }, store, [])
  else
    match lookupByKey store (licenseKey.getD "") with
    | none =>
      ({ valid := false, error := some "Invalid license key", client := none,
         httpStatus := 401 },
       store,
       [mkLog "unknown" (licenseKey.getD "") (extractDomain (domain.getD ""))
          clientIP userAgent "invalid" (some "License key not found")])
    | some c =>
      if c.status ≠ "active" then
        ({ valid := false, error := some ("License is " ++ c.status),
           client := none, httpStatus := 403 },
         store,
         [mkLog c.id (licenseKey.getD "") (extractDomain (domain.getD ""))
            clientIP userAgent "suspended" (some ("Client status: " ++ c.status))])
      else if extractDomain (domain.getD "") ≠ extractDomain c.websiteDomain then
        ({ valid := false,
           error := some ("Domain not authorized for this license. Expected: "
             ++ extractDomain c.websiteDomain ++ ", Got: "
             ++ extractDomain (domain.getD "")),
           client := none, httpStatus := 403 },
         store,
         [mkLog c.id (licenseKey.getD "") (extractDomain (domain.getD ""))
            clientIP userAgent "invalid"
            (some ("Domain mismatch: " ++ extractDomain (domain.getD "")
              ++ " not authorized for " ++ extractDomain c.websiteDomain))])
      else if c.subscriptionStatus ≠ "active" then
        ({ valid := false,
           error := some ("Subscription is " ++ c.subscriptionStatus),
           client := none, httpStatus := 402 },
         store,
         [mkLog c.id (licenseKey.getD "") (extractDomain (domain.getD ""))
            clientIP userAgent "expired"
            (some ("Subscription status: " ++ c.subscriptionStatus))])
      else
        match c.subscriptionEndDate with
        | some endDate =>
          if now > endDate then
            ({ valid := false, error := some "Subscription has expired",
               client := none, httpStatus := 402 },
             updateTenant store c.id (expireSub now),
             [mkLog c.id (licenseKey.getD "") (extractDomain (domain.getD ""))
                clientIP userAgent "expired" (some "Subscription expired")])
          else
            postSuccess store now (licenseKey.getD "")
              (extractDomain (domain.getD "")) clientIP userAgent c
        | none =>
          postSuccess store now (licenseKey.getD "")
            (extractDomain (domain.getD "")) clientIP userAgent c

/-- The JSON body of a `GET /verify-license` response with its HTTP status. -/
structure GetResponse where
  valid : Bool
  error : Option String
  expiresAt : Option Int
  httpStatus : Nat
deriving Repr, DecidableEq

/-- `GET /verify-license` (verify-license/route.ts lines 224-313): the
lightweight check.  It reads the store but inserts no log rows and performs
no updates, which the embedding makes structural: the function returns only
the response.  Note its pipeline order differs from `postVerify`: the
subscription-status gate comes before the domain-binding check. -/
def getVerify (store : List Tenant) (now : Int) (license domain : Option String) :
    GetResponse :=
  if falsyStr license || falsyStr domain then
    { valid := false, error := some "License key and domain are required",
      expiresAt := none, httpStatus := 400 }
  else
    match lookupByKey store (license.getD "") with
    | none =>
      { valid := false, error := some "Invalid license key", expiresAt := none,
        httpStatus := 401 }
    | some c =>
      if c.status ≠ "active" then
        { valid := false, error := some ("License is " ++ c.status),
          expiresAt := none, httpStatus := 403 }
      else if c.subscriptionStatus ≠ "active" then
        { valid := false,
          error := some ("Subscription is " ++ c.subscriptionStatus),
          expiresAt := none, httpStatus := 402 }
      else if extractDomain (domain.getD "") ≠ extractDomain c.websiteDomain then
        { valid := false,
          error := some ("Domain not authorized. Expected: "
            ++ extractDomain c.websiteDomain ++ ", Got: "
            ++ extractDomain (domain.getD "")),
          expiresAt := none, httpStatus := 403 }
      else
        match c.subscriptionEndDate with
        | some endDate =>
          if now > endDate then
            { valid := false, error := some "Subscription expired",
              expiresAt := none, httpStatus := 402 }
          else
            { valid := true, error := none, expiresAt := some endDate,
              httpStatus := 200 }
        | none =>
          { valid := true, error := none, expiresAt := none, httpStatus := 200 }

/-- CORS headers attached to every verification and discovery response
(verify-license/route.ts lines 8-12, check-by-domain/route.ts lines 7-11). -/
def corsHeaders : List (String × String) :=
  [("Access-Control-Allow-Origin", "*"),
   ("Access-Control-Allow-Methods", "GET, POST, OPTIONS"),
   ("Access-Control-Allow-Headers", "Content-Type, Authorization")]

/-! ## `POST /check-by-domain` (check-by-domain/route.ts lines 28-121)

Unauthenticated discovery endpoint: the request body carries only a domain;
on success the response includes the tenant's license key in plaintext. -/

structure CheckByDomainResponse where
  valid : Bool
  error : Option String
  globallyVerified : Option Bool
  licenseKey : Option String
  clientId : Option String
  httpStatus : Nat
deriving Repr, DecidableEq

/-- `db.select(...).from(saasClients).where(eq(saasClients.websiteDomain, d)).limit(1)`:
note the stored `websiteDomain` is compared raw, only the request side is
canonicalized. -/
def lookupByDomain (store : List Tenant) (d : String) : Option Tenant :=
  store.find? (fun t => t.websiteDomain == d)

def checkByDomain (store : List Tenant) (now : Int) (domain : Option String) :
    CheckByDomainResponse :=
  if falsyStr domain then
    { valid := false, error := some "Domain is required",
      globallyVerified := none, licenseKey := none, clientId := none,
      httpStatus := 400 }
  else
    match lookupByDomain store (extractDomain (domain.getD "")) with
    | none =>
      { valid := false, error := some "No license found for this domain",
        globallyVerified := none, licenseKey := none, clientId := none,
        httpStatus := 404 }
    | some c =>
      if c.status ≠ "active" then
        { valid := false, error := some ("License is " ++ c.status),
          globallyVerified := none, licenseKey := none, clientId := none,
          httpStatus := 403 }
      else if c.subscriptionStatus ≠ "active" then
        { valid := false,
          error := some ("Subscription is " ++ c.subscriptionStatus),
          globallyVerified := none, licenseKey := none, clientId := none,
          httpStatus := 402 }
      else
        match c.subscriptionEndDate with
        | some endDate =>
          if now > endDate then
            { valid := false, error := some "Subscription has expired",
              globallyVerified := none, licenseKey := none, clientId := none,
              httpStatus := 402 }
          else
            { valid := true, error := none,
              globallyVerified := some (c.licenseVerified = "yes"),
              licenseKey := some c.licenseKey, clientId := some c.id,
              httpStatus := 200 }
        | none =>
          { valid := true, error := none,
            globallyVerified := some (c.licenseVerified = "yes"),
            licenseKey := some c.licenseKey, clientId := some c.id,
            httpStatus := 200 }

/-! ## Client lifecycle: `POST /clients/[id]/toggle-status`
(toggle-status/route.ts lines 36-73) -/

/-- ASCII uppercasing of one character (for `action.toUpperCase()`). -/
def upperChar (c : Char) : Char :=
  if 97 ≤ c.toNat ∧ c.toNat ≤ 122 then Char.ofNat (c.toNat - 32) else c

def upperStr (s : String) : String := String.mk (s.data.map upperChar)

/-- JS `String.prototype.trim` restricted to what the notes template needs:
strip leading and trailing whitespace. -/
def trimStr (s : String) : String :=
  String.mk (((s.data.dropWhile (fun c => c.isWhitespace)).reverse.dropWhile
    (fun c => c.isWhitespace)).reverse)

/-- The new `notes` value:
`reason ? trim(`{client.notes || ''}\n[{ts}] {ACTION}: {reason}`) : client.notes`. -/
def toggleNotes (c : Tenant) (action : String) (reason : Option String)
    (nowIso : String) : Option String :=
  match reason with
  | some r => some (trimStr ((c.notes.getD "") ++ "\n[" ++ nowIso ++ "] "
      ++ upperStr action ++ ": " ++ r))
  | none => c.notes

/-- The status transition of the toggle-status handler, applied to the tenant
row it found; `none` models the 400 "Invalid action" response. -/
def toggleStatus (action : String) (reason : Option String) (now : Int)
    (nowIso : String) (c : Tenant) : Option Tenant :=
  if action = "enable" then
    some { c with status := "active",
                  subscriptionStatus :=
                    if c.subscriptionStatus = "cancelled" then "active"
                    else c.subscriptionStatus,
                  notes := toggleNotes c action reason nowIso,
                  updatedAt := now }
  else if action = "disable" then
    some { c with status := "suspended",
                  notes := toggleNotes c action reason nowIso,
                  updatedAt := now }
  else if action = "suspend" then
    some { c with status := "suspended", subscriptionStatus := "suspended",
                  notes := toggleNotes c action reason nowIso,
                  updatedAt := now }
  else none

/-! ## Tenant API client (`src/lib/tenant-api.ts`) -/

/-- The fields of a tenant row that `fetchTenantUsers` reads
(the `TenantClient` interface, tenant-api.ts lines 28-36). -/
structure TenantClient where
  id : String
  companyName : String
  apiBaseUrl : Option String
  authType : String
  apiKey : Option String
  apiStatus : Option String
deriving Repr, DecidableEq

/-- JS `tenant.apiStatus || 'inactive'` (tenant-api.ts line 59). -/
def apiStatusDisplay : Option String → String
  | none => "inactive"
  | some s => if s.data.isEmpty then "inactive" else s

/-- The three fail-fast guards at the top of `fetchTenantUsers`
(tenant-api.ts lines 58-68), run before any network call; `some e` is the
thrown error message. -/
def fetchPrecheckError (t : TenantClient) : Option String :=
  if t.apiStatus ≠ some "active" then
    some ("Tenant API is " ++ apiStatusDisplay t.apiStatus)
  else if falsyStr t.apiBaseUrl then
    some "Tenant API base URL is not configured"
  else if t.authType ≠ "HMAC" ∨ falsyStr t.apiKey then
    some "Only HMAC authentication is currently supported and API key is required"
  else none

/-- The API-eligibility invariant as the spec states it: `apiStatus == active`
AND `apiBaseUrl` set AND `authType == HMAC` AND `apiKey` set ("set" meaning a
JS-truthy value: non-null and non-empty). -/
def apiEligible (t : TenantClient) : Bool :=
  t.apiStatus = some "active" && !falsyStr t.apiBaseUrl
    && t.authType = "HMAC" && !falsyStr t.apiKey

/-- Models whether `new URL("/api/admin/users", base)` (tenant-api.ts line 71)
succeeds: the base must itself parse as an absolute URL and must not have an
opaque path (a cannot-be-a-base URL such as `mailto:x` or a schemeless
`example.com` makes the platform constructor throw `TypeError: Invalid URL`
before any network call). -/
def urlBaseOk (base : String) : Bool :=
  match splitScheme base.data with
  | none => false
  | some (scheme, rest) =>
    let schemeL := scheme.map lowerChar
    if schemeL = "http".data ∨ schemeL = "https".data then
      (urlHostname base).isSome
    else
      match rest with
      | '/' :: '/' :: _ => (urlHostname base).isSome
      | _ => false

example : urlBaseOk "https://shop.example.com" = true := by decide
example : urlBaseOk "example.com" = false := by decide
example : urlBaseOk "http://" = false := by decide

/-- `fetchTenantUsers` with the network abstracted: `net` maps the request
URL to the remote outcome.  Returns the outcome together with the number of
network calls made, so that fail-fast (zero calls) is expressible.  Inside
the source's `try` block, `new URL("/api/admin/users", tenant.apiBaseUrl)`
runs before `fetch`; when the base does not parse, the constructor's
`TypeError` ("Invalid URL") is caught, logged, and rethrown — still with no
network call made. -/
def fetchTenantUsers (t : TenantClient) (net : String → Except String String) :
    Except String String × Nat :=
  match fetchPrecheckError t with
  | some e => (Except.error e, 0)
  | none =>
    if urlBaseOk (t.apiBaseUrl.getD "") then
      (net ((t.apiBaseUrl.getD "") ++ "/api/admin/users"), 1)
    else
      (Except.error "Invalid URL", 0)

/-! ## Key generator (regenerate-license/route.ts lines 8-14, identical in
the clients collection route).  `crypto.randomBytes(12)` is the function's
random seed, made explicit as the `bytes` argument. -/

/-- Lowercase hex digits, as produced by Node's `Buffer.toString('hex')`. -/
def hexDigits : List Char := "0123456789abcdef".data

/-- One byte to two lowercase hex characters. -/
def byteToHexChars (b : Nat) : List Char :=
  [hexDigits.getD ((b / 16) % 16) '0', hexDigits.getD (b % 16) '0']

/-- `buffer.toString('hex')` over a byte list. -/
def bytesToHexChars (bs : List Nat) : List Char :=
  (bs.map byteToHexChars).flatten

/-- Chunking a character list into groups of at most 4, as the regex
`/.{1,4}/g` does. -/
def chunks4 : List Char → List (List Char)
  | [] => []
  | [a] => [[a]]
  | [a, b] => [[a, b]]
  | [a, b, c] => [[a, b, c]]
  | a :: b :: c :: d :: rest => [a, b, c, d] :: chunks4 rest

/-- Interpose `-` between groups (`Array.prototype.join('-')`). -/
def joinDash : List (List Char) → List Char
  | [] => []
  | [g] => g
  | g :: gs => g ++ '-' :: joinDash gs

/-- `generateLicenseKey` (regenerate-license/route.ts lines 8-14) as a
function of the 12 random bytes drawn: hex-encode, uppercase, split into
groups of up to 4, join with `-`, prefix with `LIC-`.  The
`?.join('-') || randomPart` fallback fires only when the regex match is
`null`, i.e. on the empty string. -/
def generateLicenseKey (bytes : List Nat) : String :=
  let randomPart := (bytesToHexChars bytes).map upperChar
  let formatted := if randomPart.isEmpty then randomPart
                   else joinDash (chunks4 randomPart)
  String.mk (('L' :: 'I' :: 'C' :: '-' :: []) ++ formatted)

example :
    generateLicenseKey (List.replicate 12 0)
      = "LIC-0000-0000-0000-0000-0000-0000" := by decide
example : (generateLicenseKey (List.replicate 12 0)).length = 33 := by decide
example :
    generateLicenseKey [0xAB, 0xCD, 0xEF, 1, 2, 3, 4, 5, 6, 7, 8, 9]
      = "LIC-ABCD-EF01-0203-0405-0607-0809" := by decide

/-! ## HMAC-SHA256 (`createHmacSignature`, tenant-api.ts lines 38-47)

`crypto.createHmac('sha256', secret).update(toSign).digest('hex')` is platform
code; SHA-256 (FIPS 180-4) and HMAC (RFC 2104) are implemented here over byte
lists (`Nat` values < 256) so the signature function is fully executable.
The implementation is validated below against published test vectors. -/

/-- Truncate to 32 bits. -/
def u32 (n : Nat) : Nat := n % 4294967296

/-- 32-bit right rotation. -/
def rotr32 (n x : Nat) : Nat := u32 ((x >>> n) ||| (x <<< (32 - n)))

def sSig0 (x : Nat) : Nat := (rotr32 7 x) ^^^ (rotr32 18 x) ^^^ (x >>> 3)
def sSig1 (x : Nat) : Nat := (rotr32 17 x) ^^^ (rotr32 19 x) ^^^ (x >>> 10)
def bSig0 (x : Nat) : Nat := (rotr32 2 x) ^^^ (rotr32 13 x) ^^^ (rotr32 22 x)
def bSig1 (x : Nat) : Nat := (rotr32 6 x) ^^^ (rotr32 11 x) ^^^ (rotr32 25 x)

/-- The 64 SHA-256 round constants (FIPS 180-4 §4.2.2, in decimal). -/
def sha256K : List Nat :=
  [1116352408, 1899447441, 3049323471, 3921009573, 961987163, 1508970993,
   2453635748, 2870763221, 3624381080, 310598401, 607225278, 1426881987,
   1925078388, 2162078206, 2614888103, 3248222580, 3835390401, 4022224774,
   264347078, 604807628, 770255983, 1249150122, 1555081692, 1996064986,
   2554220882, 2821834349, 2952996808, 3210313671, 3336571891, 3584528711,
   113926993, 338241895, 666307205, 773529912, 1294757372, 1396182291,
   1695183700, 1986661051, 2177026350, 2456956037, 2730485921, 2820302411,
   3259730800, 3345764771, 3516065817, 3600352804, 4094571909, 275423344,
   430227734, 506948616, 659060556, 883997877, 958139571, 1322822218,
   1537002063, 1747873779, 1955562222, 2024104815, 2227730452, 2361852424,
   2428436474, 2756734187, 3204031479, 3329325298]

/-- Working state of the compression function (eight 32-bit words). -/
structure Hash8 where
  a : Nat
  b : Nat
  c : Nat
  d : Nat
  e : Nat
  f : Nat
  g : Nat
  h : Nat
deriving Repr, DecidableEq

def sha256Init : Hash8 :=
  { a := 1779033703, b := 3144134277, c := 1013904242, d := 2773480762,
    e := 1359893119, f := 2600822924, g := 528734635, h := 1541459225 }

/-- Big-endian 64-bit length field. -/
def be64 (n : Nat) : List Nat :=
  [(n >>> 56) % 256, (n >>> 48) % 256, (n >>> 40) % 256, (n >>> 32) % 256,
   (n >>> 24) % 256, (n >>> 16) % 256, (n >>> 8) % 256, n % 256]

/-- SHA-256 message padding: append `0x80`, zeros to 56 mod 64, then the
bit length as 64-bit big-endian. -/
def sha256Pad (msg : List Nat) : List Nat :=
  msg ++ 0x80 :: List.replicate ((64 - ((msg.length + 9) % 64)) % 64) 0
      ++ be64 (8 * msg.length)

/-- Four big-endian bytes to one 32-bit word, repeated. -/
def bytesToWords : List Nat → List Nat
  | a :: b :: c :: d :: rest =>
    (a * 16777216 + b * 65536 + c * 256 + d) :: bytesToWords rest
  | _ => []

/-- Extend the 16 block words to the 64-entry message schedule. -/
def extendW (w : List Nat) : List Nat :=
  (List.range 48).foldl
    (fun w i =>
      let t := i + 16
      w ++ [u32 (sSig1 (w.getD (t - 2) 0) + w.getD (t - 7) 0
        + sSig0 (w.getD (t - 15) 0) + w.getD (t - 16) 0)])
    w

/-- One compression round. -/
def sha256Round (s : Hash8) (ki wi : Nat) : Hash8 :=
  let ch := (s.e &&& s.f) ^^^ ((s.e ^^^ 4294967295) &&& s.g)
  let maj := (s.a &&& s.b) ^^^ (s.a &&& s.c) ^^^ (s.b &&& s.c)
  let t1 := u32 (s.h + bSig1 s.e + ch + ki + wi)
  let t2 := u32 (bSig0 s.a + maj)
  { a := u32 (t1 + t2), b := s.a, c := s.b, d := s.c,
    e := u32 (s.d + t1), f := s.e, g := s.f, h := s.g }

/-- Compress one 64-byte block into the running hash. -/
def sha256Block (h0 : Hash8) (block : List Nat) : Hash8 :=
  let w := extendW (bytesToWords block)
  let s := (List.range 64).foldl
    (fun s i => sha256Round s (sha256K.getD i 0) (w.getD i 0)) h0
  { a := u32 (h0.a + s.a), b := u32 (h0.b + s.b), c := u32 (h0.c + s.c),
    d := u32 (h0.d + s.d), e := u32 (h0.e + s.e), f := u32 (h0.f + s.f),
    g := u32 (h0.g + s.g), h := u32 (h0.h + s.h) }

/-- Split the padded message into 64-byte blocks (structural recursion:
sixty-four explicit heads would be unwieldy, so recurse on a fuel equal to
the list length). -/
def chunk64Aux : Nat → List Nat → List (List Nat)
  | 0, _ => []
  | _, [] => []
  | fuel + 1, l => l.take 64 :: chunk64Aux fuel (l.drop 64)

def chunk64 (l : List Nat) : List (List Nat) := chunk64Aux l.length l

/-- One 32-bit word to four big-endian bytes. -/
def word32ToBytes (w : Nat) : List Nat :=
  [(w >>> 24) % 256, (w >>> 16) % 256, (w >>> 8) % 256, w % 256]

/-- SHA-256 of a byte list, as a 32-byte list. -/
def sha256 (msg : List Nat) : List Nat :=
  let hf := (chunk64 (sha256Pad msg)).foldl sha256Block sha256Init
  ([hf.a, hf.b, hf.c, hf.d, hf.e, hf.f, hf.g, hf.h].map word32ToBytes).flatten

/-- HMAC-SHA256 (RFC 2104) with the standard 64-byte block size. -/
def hmacSha256 (key msg : List Nat) : List Nat :=
  let k0 := if 64 < key.length then sha256 key else key
  let kp := k0 ++ List.replicate (64 - k0.length) 0
  sha256 ((kp.map (fun b => b ^^^ 0x5c))
    ++ sha256 ((kp.map (fun b => b ^^^ 0x36)) ++ msg))

/-- UTF-8 encoding of one character. -/
def utf8EncodeChar (c : Char) : List Nat :=
  let n := c.toNat
  if n < 128 then [n]
  else if n < 2048 then [192 ||| (n >>> 6), 128 ||| (n &&& 63)]
  else if n < 65536 then
    [224 ||| (n >>> 12), 128 ||| ((n >>> 6) &&& 63), 128 ||| (n &&& 63)]
  else
    [240 ||| (n >>> 18), 128 ||| ((n >>> 12) &&& 63),
     128 ||| ((n >>> 6) &&& 63), 128 ||| (n &&& 63)]

/-- The UTF-8 bytes of a string (what `hmac.update(string)` hashes). -/
def utf8Bytes (s : String) : List Nat :=
  (s.data.map utf8EncodeChar).flatten

/-- Byte list to lowercase hex string (`digest('hex')`). -/
def hexLowerStr (bs : List Nat) : String :=
  String.mk (bs.map byteToHexChars).flatten

/-- `createHmacSignature` (tenant-api.ts lines 38-47): HMAC-SHA256 of
`"{timestamp}:{path}:{search}:{body}"` under the shared secret, hex-encoded;
`body` defaults to the empty string. -/
def createHmacSignature (secret timestamp path search : String)
    (body : String := "") : String :=
  hexLowerStr (hmacSha256 (utf8Bytes secret)
    (utf8Bytes (timestamp ++ ":" ++ path ++ ":" ++ search ++ ":" ++ body)))

-- FIPS 180-4 test vector: the embedding's SHA-256 agrees with the standard.
set_option maxRecDepth 10000 in
example :
    hexLowerStr (sha256 (utf8Bytes "abc"))
      = "ba7816bf8f01cfea414140de5dae2223b00361a396177a9cb410ff61f20015ad" := by
  decide

-- RFC 4231 test case 2: the embedding's HMAC-SHA256 agrees with the standard.
set_option maxRecDepth 40000 in
example :
    hexLowerStr (hmacSha256 (utf8Bytes "Jefe")
        (utf8Bytes "what do ya want for nothing?"))
      = "5bdcc146bf60754e6a042426089575c75a003f089d2739839dec58b964ec3843" := by
  decide

/-! # Theorems for the claims -/

/-- C9: `toggle-status` on an existing tenant: action `enable` sets `status`
to `active` and reactivates `subscriptionStatus` only from `cancelled`
(leaving `expired`/`suspended` unchanged); `disable` sets `status` to
`suspended` and leaves `subscriptionStatus` untouched; `suspend` sets both to
`suspended`. -/
theorem toggle_status_transitions (c : Tenant) (reason : Option String)
    (now : Int) (iso : String) :
    ((toggleStatus "enable" reason now iso c).map Tenant.status = some "active")
  ∧ ((toggleStatus "enable" reason now iso c).map Tenant.subscriptionStatus
      = some (if c.subscriptionStatus = "cancelled" then "active"
              else c.subscriptionStatus))
  ∧ ((toggleStatus "disable" reason now iso c).map Tenant.status
      = some "suspended")
  ∧ ((toggleStatus "disable" reason now iso c).map Tenant.subscriptionStatus
      = some c.subscriptionStatus)
  ∧ ((toggleStatus "suspend" reason now iso c).map Tenant.status
      = some "suspended")
  ∧ ((toggleStatus "suspend" reason now iso c).map Tenant.subscriptionStatus
      = some "suspended") := by
  refine ⟨?_, ?_, ?_, ?_, ?_, ?_⟩ <;> simp [toggleStatus]

/-- A tenant satisfying the API-eligibility invariant whose `apiBaseUrl` is
truthy but not a parseable URL base, for the C7 counterexample. -/
def badBaseTenant : TenantClient :=
  { id := "t4", companyName := "NoScheme Inc", apiBaseUrl := some "example.com",
    authType := "HMAC", apiKey := some "sekrit", apiStatus := some "active" }

/-- C7 counterexample: the claimed "only if" direction is false: this tenant
satisfies the API-eligibility invariant, yet `fetchTenantUsers` still throws
before any network call — `new URL("/api/admin/users", "example.com")`
(tenant-api.ts line 71) throws `Invalid URL` before `fetch`, a fourth
pre-network error beyond the three guard messages. -/
theorem fetch_tenant_users_eligible_still_throws :
    apiEligible badBaseTenant = true
  ∧ (fetchTenantUsers badBaseTenant (fun _ => Except.ok "[]")).1
      = Except.error "Invalid URL"
  ∧ (fetchTenantUsers badBaseTenant (fun _ => Except.ok "[]")).2 = 0 :=
  ⟨by decide, rfl, rfl⟩

/-- C7 (amended): `fetchTenantUsers` throws a descriptive error before any
network call whenever the API-eligibility invariant fails, with three
distinct guard messages (for a `paused` tenant the error mentions `paused`
and zero network calls are made); in addition an eligible tenant whose
`apiBaseUrl` is set but not a parseable URL base also throws before any
network call, with the distinct fourth message "Invalid URL" from the URL
construction; only an eligible tenant with a parseable base reaches the
network. -/
theorem fetch_tenant_users_fail_fast (t : TenantClient)
    (net : String → Except String String) :
    (fetchPrecheckError t = none ↔ apiEligible t = true)
  ∧ (apiEligible t = false →
      (fetchTenantUsers t net).2 = 0
      ∧ ∃ e, (fetchTenantUsers t net).1 = Except.error e)
  ∧ (t.apiStatus = some "paused" →
      (fetchTenantUsers t net).1 = Except.error "Tenant API is paused"
      ∧ (fetchTenantUsers t net).2 = 0)
  ∧ (apiEligible t = true → urlBaseOk (t.apiBaseUrl.getD "") = false →
      (fetchTenantUsers t net).1 = Except.error "Invalid URL"
      ∧ (fetchTenantUsers t net).2 = 0)
  ∧ (apiEligible t = true → urlBaseOk (t.apiBaseUrl.getD "") = true →
      (fetchTenantUsers t net).2 = 1)
  ∧ ("Tenant API is paused" : String) ≠ "Tenant API base URL is not configured"
  ∧ ("Tenant API is paused" : String)
      ≠ "Only HMAC authentication is currently supported and API key is required"
  ∧ ("Tenant API base URL is not configured" : String)
      ≠ "Only HMAC authentication is currently supported and API key is required"
  ∧ ("Invalid URL" : String) ≠ "Tenant API is paused"
  ∧ ("Invalid URL" : String) ≠ "Tenant API base URL is not configured"
  ∧ ("Invalid URL" : String)
      ≠ "Only HMAC authentication is currently supported and API key is required"
    := by
  have hiff : fetchPrecheckError t = none ↔ apiEligible t = true := by
    unfold fetchPrecheckError apiEligible
    split_ifs with h1 h2 h3 <;> simp_all
    tauto
  refine ⟨hiff, ?_, ?_, ?_, ?_, by decide, by decide, by decide, by decide,
    by decide, by decide⟩
  · intro hfail
    cases hpre : fetchPrecheckError t with
    | none => rw [hiff.mp hpre] at hfail; simp at hfail
    | some e =>
      unfold fetchTenantUsers
      rw [hpre]
      exact ⟨rfl, e, rfl⟩
  · intro hp
    unfold fetchTenantUsers fetchPrecheckError
    rw [if_pos (by simp [hp])]
    simp [hp, apiStatusDisplay]
  · intro helig hbad
    unfold fetchTenantUsers
    rw [hiff.mpr helig]
    dsimp only
    rw [if_neg (by simp [hbad])]
    exact ⟨rfl, rfl⟩
  · intro helig hgood
    unfold fetchTenantUsers
    rw [hiff.mpr helig]
    dsimp only
    rw [if_pos hgood]

/-- C5 counterexample: the spec's example `extractDomain("HTTPS://Foo.COM/")
== extractDomain("foo.com")` is false: `String.prototype.startsWith('http')`
is case-sensitive, so `https://` is prepended to the upper-case input and
the URL parser reads host `HTTPS` (with an empty port), giving `"https"`. -/
theorem extract_domain_uppercase_scheme_diverges :
    extractDomain "HTTPS://Foo.COM/" ≠ extractDomain "foo.com"
  ∧ extractDomain "HTTPS://Foo.COM/" = "https" := by decide

/-- C5 (amended): `extractDomain` is total (never throws); inputs differing
only by a lower-case scheme, a trailing slash, or letter case of the host
canonicalize identically; an upper-case scheme is not recognized by the
case-sensitive `startsWith('http')` test and yields `"https"`; unparseable
inputs fall back to the input lowercased. -/
theorem extract_domain_normalizes :
    extractDomain "https://Foo.COM/" = "foo.com"
  ∧ extractDomain "foo.com" = "foo.com"
  ∧ extractDomain "Foo.COM" = "foo.com"
  ∧ extractDomain "http://foo.com" = "foo.com"
  ∧ extractDomain "https://foo.com/" = "foo.com"
  ∧ extractDomain "HTTPS://Foo.COM/" = "https"
  ∧ extractDomain "not a url" = "not a url"
  ∧ extractDomain "NOT A URL" = "not a url" := by decide

/-! ### C4: license key format -/

def upperHexDigits : List Char := "0123456789ABCDEF".data

/-- Split a character list at every `-` (how the regex `^LIC(-[0-9A-F]{4}){6}$`
decomposes its subject). -/
def splitDash : List Char → List (List Char)
  | [] => [[]]
  | c :: rest =>
    if c = '-' then [] :: splitDash rest
    else
      match splitDash rest with
      | g :: gs => (c :: g) :: gs
      | [] => [[c]]

/-- Decidable matcher for the spec pattern `^LIC(-[0-9A-F]{4}){6}$`. -/
def licMatchChars (l : List Char) : Bool :=
  match splitDash l with
  | p :: gs =>
    p == "LIC".data && gs.length == 6
      && gs.all (fun g => g.length == 4
          && g.all (fun c => decide (c ∈ upperHexDigits)))
  | [] => false

def licMatch (s : String) : Bool := licMatchChars s.data

example : licMatch "LIC-ABCD-EF01-0203-0405-0607-0809" = true := by decide
example : licMatch "LIC-ABCD-EF01-0203-0405-0607" = false := by decide
example : licMatch "LIC-abcd-EF01-0203-0405-0607-0809" = false := by decide

lemma getD_hexDigits_mem_of_lt : ∀ i < 16, hexDigits.getD i '0' ∈ hexDigits := by
  decide

lemma mem_byteToHexChars {b : Nat} {c : Char} (h : c ∈ byteToHexChars b) :
    c ∈ hexDigits := by
  unfold byteToHexChars at h
  simp only [List.mem_cons, List.not_mem_nil, or_false] at h
  rcases h with rfl | rfl
  · exact getD_hexDigits_mem_of_lt _ (Nat.mod_lt _ (by norm_num))
  · exact getD_hexDigits_mem_of_lt _ (Nat.mod_lt _ (by norm_num))

lemma bytesToHexChars_mem {bs : List Nat} {c : Char}
    (h : c ∈ bytesToHexChars bs) : c ∈ hexDigits := by
  unfold bytesToHexChars at h
  rw [List.mem_flatten] at h
  obtain ⟨g, hg, hc⟩ := h
  rw [List.mem_map] at hg
  obtain ⟨b, _, rfl⟩ := hg
  exact mem_byteToHexChars hc

lemma bytesToHexChars_length (bs : List Nat) :
    (bytesToHexChars bs).length = 2 * bs.length := by
  induction bs with
  | nil => rfl
  | cons b bs ih =>
    show (byteToHexChars b ++ bytesToHexChars bs).length = _
    rw [List.length_append, ih]
    simp [byteToHexChars]
    omega

lemma upperChar_hex : ∀ c ∈ hexDigits, upperChar c ∈ upperHexDigits := by
  decide

lemma chunks4_spec :
    ∀ (n : Nat) (l : List Char), l.length = 4 * n →
      (chunks4 l).length = n
      ∧ ∀ g ∈ chunks4 l, g.length = 4 ∧ ∀ c ∈ g, c ∈ l := by
  intro n
  induction n with
  | zero =>
    intro l hl
    have : l = [] := List.eq_nil_of_length_eq_zero (by omega)
    subst this
    simp [chunks4]
  | succ n ih =>
    intro l hl
    cases l with
    | nil => simp at hl
    | cons a l1 =>
    cases l1 with
    | nil => simp at hl; omega
    | cons b l2 =>
    cases l2 with
    | nil => simp at hl; omega
    | cons c l3 =>
    cases l3 with
    | nil => simp at hl; omega
    | cons d rest =>
      have hrest : rest.length = 4 * n := by
        simp only [List.length_cons] at hl
        omega
      obtain ⟨h1, h2⟩ := ih rest hrest
      refine ⟨by simp [chunks4, h1], ?_⟩
      intro g hg
      rw [show chunks4 (a :: b :: c :: d :: rest)
            = [a, b, c, d] :: chunks4 rest from rfl, List.mem_cons] at hg
      rcases hg with rfl | hg
      · refine ⟨rfl, ?_⟩
        intro x hx
        simp only [List.mem_cons, List.not_mem_nil, or_false] at hx
        simp only [List.mem_cons]
        tauto
      · refine ⟨(h2 g hg).1, ?_⟩
        intro x hx
        simp only [List.mem_cons]
        have := (h2 g hg).2 x hx
        tauto

lemma joinDash_length :
    ∀ gs : List (List Char), gs ≠ [] → (∀ g ∈ gs, g.length = 4) →
      (joinDash gs).length = 5 * gs.length - 1 := by
  intro gs
  induction gs with
  | nil => simp
  | cons g gs ih =>
    intro _ hall
    cases gs with
    | nil =>
      show g.length = _
      rw [hall g (by simp)]
      simp
    | cons g2 gs2 =>
      show (g ++ '-' :: joinDash (g2 :: gs2)).length = _
      rw [List.length_append, hall g (by simp),
        List.length_cons, ih (by simp) (fun x hx => hall x (by simp [hx]))]
      simp only [List.length_cons]
      omega

lemma splitDash_no_dash (a : List Char) (h : '-' ∉ a) : splitDash a = [a] := by
  induction a with
  | nil => rfl
  | cons c cs ih =>
    have hc : ¬ c = '-' := fun hh => h (by simp [hh])
    have h2 : '-' ∉ cs := fun hh => h (by simp [hh])
    simp only [splitDash, if_neg hc, ih h2]

lemma splitDash_dash_append (a : List Char) (h : '-' ∉ a) (rest : List Char) :
    splitDash (a ++ '-' :: rest) = a :: splitDash rest := by
  induction a with
  | nil =>
    show splitDash ('-' :: rest) = _
    simp [splitDash]
  | cons c cs ih =>
    have hc : ¬ c = '-' := fun hh => h (by simp [hh])
    have h2 : '-' ∉ cs := fun hh => h (by simp [hh])
    show splitDash (c :: (cs ++ '-' :: rest)) = _
    simp only [splitDash, if_neg hc, ih h2]

lemma splitDash_joinDash :
    ∀ gs : List (List Char), gs ≠ [] → (∀ g ∈ gs, '-' ∉ g) →
      splitDash (joinDash gs) = gs := by
  intro gs
  induction gs with
  | nil => simp
  | cons g gs ih =>
    intro _ hall
    cases gs with
    | nil =>
      show splitDash g = [g]
      exact splitDash_no_dash g (hall g (by simp))
    | cons g2 gs2 =>
      show splitDash (g ++ '-' :: joinDash (g2 :: gs2)) = _
      rw [splitDash_dash_append g (hall g (by simp)),
        ih (by simp) (fun x hx => hall x (by simp [hx]))]

/-- C4 counterexample: the claimed total length 29 (and with it the five-group
format `LIC-XXXX-XXXX-XXXX-XXXX-XXXX`) is wrong: 12 random bytes give 24 hex
characters in six groups, so every generated key has length 33. -/
theorem generate_license_key_not_29_chars :
    (List.replicate 12 (0 : Nat)).length = 12
  ∧ generateLicenseKey (List.replicate 12 0)
      = "LIC-0000-0000-0000-0000-0000-0000"
  ∧ (generateLicenseKey (List.replicate 12 0)).length ≠ 29 := by decide

/-- C4 (amended): for any 12 bytes, `generateLicenseKey` returns `LIC-`
followed by the 24 uppercase hex characters in six `-`-separated groups of
four; the output matches `^LIC(-[0-9A-F]\x7b4\x7d)\x7b6\x7d$` and is 33
characters long (not 29 as claimed). -/
theorem generate_license_key_format (bytes : List Nat)
    (hlen : bytes.length = 12) :
    licMatch (generateLicenseKey bytes) = true
  ∧ (generateLicenseKey bytes).length = 33 := by
  have hrplen : ((bytesToHexChars bytes).map upperChar).length = 24 := by
    rw [List.length_map, bytesToHexChars_length, hlen]
  have hrpmem : ∀ c ∈ (bytesToHexChars bytes).map upperChar,
      c ∈ upperHexDigits := by
    intro c hc
    rw [List.mem_map] at hc
    obtain ⟨x, hx, rfl⟩ := hc
    exact upperChar_hex _ (bytesToHexChars_mem hx)
  have hne : ((bytesToHexChars bytes).map upperChar).isEmpty = false := by
    cases hrpe : (bytesToHexChars bytes).map upperChar with
    | nil => rw [hrpe] at hrplen; simp at hrplen
    | cons x xs => rfl
  obtain ⟨hclen, hcmem⟩ :=
    chunks4_spec 6 ((bytesToHexChars bytes).map upperChar) (by omega)
  have hgne : chunks4 ((bytesToHexChars bytes).map upperChar) ≠ [] := by
    intro hh
    rw [hh] at hclen
    simp at hclen
  have hgdashfree :
      ∀ g ∈ chunks4 ((bytesToHexChars bytes).map upperChar), '-' ∉ g := by
    intro g hg hdg
    exact absurd (hrpmem '-' ((hcmem g hg).2 '-' hdg)) (by decide)
  have hform : generateLicenseKey bytes
      = String.mk ('L' :: 'I' :: 'C' :: '-' ::
          joinDash (chunks4 ((bytesToHexChars bytes).map upperChar))) := by
    unfold generateLicenseKey
    simp only [hne, Bool.false_eq_true, if_false]
    rfl
  constructor
  · rw [hform]
    show licMatchChars ('L' :: 'I' :: 'C' :: '-' ::
      joinDash (chunks4 ((bytesToHexChars bytes).map upperChar))) = true
    unfold licMatchChars
    rw [show ('L' :: 'I' :: 'C' :: '-' ::
          joinDash (chunks4 ((bytesToHexChars bytes).map upperChar)))
        = ['L', 'I', 'C'] ++ '-' ::
          joinDash (chunks4 ((bytesToHexChars bytes).map upperChar)) from rfl,
      splitDash_dash_append ['L', 'I', 'C'] (by decide),
      splitDash_joinDash _ hgne hgdashfree]
    rw [Bool.and_eq_true, Bool.and_eq_true]
    refine ⟨⟨by decide, by rw [hclen]; rfl⟩, ?_⟩
    rw [List.all_eq_true]
    intro g hg
    rw [Bool.and_eq_true]
    refine ⟨by rw [(hcmem g hg).1]; rfl, ?_⟩
    rw [List.all_eq_true]
    intro c hc
    exact decide_eq_true (hrpmem c ((hcmem g hg).2 c hc))
  · rw [hform]
    show ('L' :: 'I' :: 'C' :: '-' ::
      joinDash (chunks4 ((bytesToHexChars bytes).map upperChar))).length = 33
    simp only [List.length_cons]
    rw [joinDash_length _ hgne (fun g hg => (hcmem g hg).1), hclen]

/-- C4 witness: the amended format theorem applied to twelve zero bytes. -/
theorem generate_license_key_format_witness :
    (List.replicate 12 (0 : Nat)).length = 12
  ∧ (licMatch (generateLicenseKey (List.replicate 12 0)) = true
     ∧ (generateLicenseKey (List.replicate 12 0)).length = 33) :=
  ⟨by decide, generate_license_key_format _ (by decide)⟩

/-- A concrete tenant with a paused API, for the C7 witness. -/
def pausedTenant : TenantClient :=
  { id := "t1", companyName := "Acme", apiBaseUrl := some "https://shop.example.com",
    authType := "HMAC", apiKey := some "sekrit", apiStatus := some "paused" }

/-- A concrete eligible tenant with a parseable base, for the C7 witness. -/
def goodApiTenant : TenantClient :=
  { id := "t5", companyName := "Good Co",
    apiBaseUrl := some "https://shop.example.com", authType := "HMAC",
    apiKey := some "sekrit", apiStatus := some "active" }

/-- C7 witness: the fail-fast theorem applied to a concrete paused tenant
(zero network calls) and to a concrete eligible tenant with a parseable base
(exactly one network call). -/
theorem fetch_tenant_users_fail_fast_witness :
    ((fetchTenantUsers pausedTenant (fun _ => Except.ok "[]")).1
        = Except.error "Tenant API is paused"
      ∧ (fetchTenantUsers pausedTenant (fun _ => Except.ok "[]")).2 = 0)
  ∧ (fetchTenantUsers goodApiTenant (fun _ => Except.ok "[]")).2 = 1 :=
  ⟨(fetch_tenant_users_fail_fast pausedTenant
      (fun _ => Except.ok "[]")).2.2.1 rfl,
   (fetch_tenant_users_fail_fast goodApiTenant
      (fun _ => Except.ok "[]")).2.2.2.2.1 (by decide) (by decide)⟩

/-! ### C10: check-by-domain leaks the license key without authentication -/

/-- C10: a `POST /check-by-domain` request whose body domain canonicalizes to
a stored tenant's `websiteDomain`, where that tenant is active with an active,
unexpired subscription, is answered `valid:true` with the tenant's full
license key in plaintext, under `Access-Control-Allow-Origin: *`; the request
carries no credential beyond the domain itself. -/
theorem check_by_domain_leaks_license_key (store : List Tenant) (now : Int)
    (d : String) (t : Tenant) (hd : d ≠ "")
    (hfind : lookupByDomain store (extractDomain d) = some t)
    (hstatus : t.status = "active")
    (hsub : t.subscriptionStatus = "active")
    (hexp : ∀ e, t.subscriptionEndDate = some e → now ≤ e) :
    checkByDomain store now (some d)
      = { valid := true, error := none,
          globallyVerified := some (t.licenseVerified = "yes"),
          licenseKey := some t.licenseKey, clientId := some t.id,
          httpStatus := 200 }
  ∧ ("Access-Control-Allow-Origin", "*") ∈ corsHeaders := by
  refine ⟨?_, by decide⟩
  have hfd : falsyStr (some d) = false := by
    cases d with
    | mk l =>
      cases l with
      | nil => simp at hd
      | cons c cs => rfl
  unfold checkByDomain
  rw [hfd]
  simp only [Bool.false_eq_true, if_false, Option.getD_some, hfind]
  rw [if_neg (by rw [hstatus]; intro hh; exact hh rfl),
    if_neg (by rw [hsub]; intro hh; exact hh rfl)]
  cases hend : t.subscriptionEndDate with
  | none => rfl
  | some e =>
    have hle := hexp e hend
    exact if_neg (by omega)

/-- A concrete active tenant bound to `shop.example.com`, for the C10
witness. -/
def domainTenant : Tenant :=
  { id := "t1", companyName := "Acme", websiteDomain := "shop.example.com",
    licenseKey := "LIC-AAAA-BBBB-CCCC-DDDD-EEEE-FFFF", status := "active",
    subscriptionType := "monthly", subscriptionStatus := "active",
    subscriptionEndDate := some 1000, lastAccessDate := none,
    lastVerificationDate := none, licenseVerified := "yes", notes := none,
    updatedAt := 0 }

/-- C10 witness: the domain-probe theorem applied to a concrete store; the
caller learns the license key knowing only the public domain. -/
theorem check_by_domain_leaks_license_key_witness :
    checkByDomain [domainTenant] 500 (some "https://Shop.Example.COM/")
      = { valid := true, error := none, globallyVerified := some true,
          licenseKey := some "LIC-AAAA-BBBB-CCCC-DDDD-EEEE-FFFF",
          clientId := some "t1", httpStatus := 200 }
  ∧ ("Access-Control-Allow-Origin", "*") ∈ corsHeaders :=
  check_by_domain_leaks_license_key [domainTenant] 500
    "https://Shop.Example.COM/" domainTenant (by decide) (by decide) rfl rfl
    (fun e he => by cases he; decide)

/-! ### Pipeline helper lemmas -/

lemma falsyStr_some_eq_false {s : String} (h : s ≠ "") :
    falsyStr (some s) = false := by
  cases s with
  | mk l =>
    cases l with
    | nil => simp at h
    | cons c cs => rfl

lemma find?_map_eq (p : Tenant → Bool) (g : Tenant → Tenant)
    (hp : ∀ t, p (g t) = p t) (l : List Tenant) :
    (l.map g).find? p = (l.find? p).map g := by
  induction l with
  | nil => rfl
  | cons t ts ih =>
    cases hpt : p t with
    | true =>
      rw [List.map_cons, List.find?_cons_of_pos _ ((hp t).trans hpt),
        List.find?_cons_of_pos _ hpt]
      rfl
    | false =>
      rw [List.map_cons,
        List.find?_cons_of_neg _ (by rw [hp t, hpt]; exact Bool.false_ne_true),
        List.find?_cons_of_neg _ (by rw [hpt]; exact Bool.false_ne_true), ih]

lemma lookupByKey_updateTenant (store : List Tenant) (key tid : String)
    (f : Tenant → Tenant) (hf : ∀ t, (f t).licenseKey = t.licenseKey) :
    lookupByKey (updateTenant store tid f) key
      = (lookupByKey store key).map (fun t => if t.id = tid then f t else t) := by
  unfold lookupByKey updateTenant
  exact find?_map_eq _ _
    (fun t => by by_cases h : t.id = tid <;> simp [h, hf]) store

/-- Projection of the two audit-date fields of every row of a store. -/
def datesOf (store : List Tenant) : List (Option Int × Option Int) :=
  store.map (fun t => (t.lastAccessDate, t.lastVerificationDate))

lemma datesOf_updateTenant_expire (store : List Tenant) (tid : String)
    (now : Int) :
    datesOf (updateTenant store tid (expireSub now)) = datesOf store := by
  unfold datesOf updateTenant
  rw [List.map_map]
  apply List.map_congr_left
  intro t _
  by_cases h : t.id = tid <;> simp [h, expireSub]

/-- The conditions under which the full POST verification pipeline reaches
its success terminal, phrased on the tenant row the key lookup returned:
account active, canonical domains equal, subscription active, and the end
date (when present) not strictly in the past. -/
def verifyOkTenant (now : Int) (dom : String) (t : Tenant) : Prop :=
  t.status = "active" ∧ extractDomain dom = extractDomain t.websiteDomain
  ∧ t.subscriptionStatus = "active"
  ∧ (∀ e, t.subscriptionEndDate = some e → now ≤ e)

/-- C1: the full POST verification returns `valid:true` — with HTTP 200, the
exact `{id, companyName, subscriptionType, subscriptionEndDate}` projection,
and `lastAccessDate`/`lastVerificationDate` set to now — if and only if the
key lookup finds a tenant that is active, domain-matched, with an active,
unexpired subscription; on every failing input `valid:false` is returned and
no tenant's `lastAccessDate`/`lastVerificationDate` changes. -/
theorem post_verify_valid_iff (store : List Tenant) (now : Int)
    (key dom ip ua : String) (hk : key ≠ "") (hd : dom ≠ "") :
    ((postVerify store now (some key) (some dom) ip ua).1.valid = true
      ↔ ∃ t, lookupByKey store key = some t ∧ verifyOkTenant now dom t)
  ∧ (∀ t, lookupByKey store key = some t → verifyOkTenant now dom t →
      (postVerify store now (some key) (some dom) ip ua).1
        = { valid := true, error := none,
            client := some { id := t.id, companyName := t.companyName,
                             subscriptionType := t.subscriptionType,
                             subscriptionEndDate := t.subscriptionEndDate },
            httpStatus := 200 }
      ∧ lookupByKey (postVerify store now (some key) (some dom) ip ua).2.1 key
          = some (touchDates now t))
  ∧ ((¬ ∃ t, lookupByKey store key = some t ∧ verifyOkTenant now dom t) →
      (postVerify store now (some key) (some dom) ip ua).1.valid = false
      ∧ datesOf (postVerify store now (some key) (some dom) ip ua).2.1
          = datesOf store) := by
  have hfk : falsyStr (some key) = false := falsyStr_some_eq_false hk
  have hfd : falsyStr (some dom) = false := falsyStr_some_eq_false hd
  unfold postVerify
  rw [hfk, hfd]
  simp only [Bool.or_self, Bool.false_eq_true, if_false, Option.getD_some]
  cases hfind : lookupByKey store key with
  | none =>
    refine ⟨by simp [verifyOkTenant], by simp, fun _ => ⟨rfl, rfl⟩⟩
  | some t =>
    dsimp only
    by_cases hs : t.status = "active"
    case neg =>
      rw [if_pos (by exact fun hh => hs hh)]
      refine ⟨by simp [verifyOkTenant, hs], ?_, fun _ => ⟨rfl, rfl⟩⟩
      rintro t' ht' ⟨h1, -⟩
      cases ht'
      exact absurd h1 hs
    case pos =>
    rw [if_neg (by exact fun hh => hh hs)]
    by_cases hdm : extractDomain dom = extractDomain t.websiteDomain
    case neg =>
      rw [if_pos (by exact fun hh => hdm hh)]
      refine ⟨by simp [verifyOkTenant, hdm], ?_, fun _ => ⟨rfl, rfl⟩⟩
      rintro t' ht' ⟨-, h2, -⟩
      cases ht'
      exact absurd h2 hdm
    case pos =>
    rw [if_neg (by exact fun hh => hh hdm)]
    by_cases hss : t.subscriptionStatus = "active"
    case neg =>
      rw [if_pos (by exact fun hh => hss hh)]
      refine ⟨by simp [verifyOkTenant, hss], ?_, fun _ => ⟨rfl, rfl⟩⟩
      rintro t' ht' ⟨-, -, h3, -⟩
      cases ht'
      exact absurd h3 hss
    case pos =>
    rw [if_neg (by exact fun hh => hh hss)]
    have hsucc :
        (postSuccess store now key (extractDomain dom) ip ua t).1
          = { valid := true, error := none,
              client := some { id := t.id, companyName := t.companyName,
                               subscriptionType := t.subscriptionType,
                               subscriptionEndDate := t.subscriptionEndDate },
              httpStatus := 200 } := rfl
    have hsuccStore :
        lookupByKey (postSuccess store now key (extractDomain dom) ip ua t).2.1
            key = some (touchDates now t) := by
      show lookupByKey (updateTenant store t.id (touchDates now)) key = _
      rw [lookupByKey_updateTenant store key t.id (touchDates now)
        (fun u => rfl), hfind]
      simp [touchDates]
    cases hend : t.subscriptionEndDate with
    | none =>
      dsimp only
      refine ⟨?_, ?_, ?_⟩
      · rw [hsucc]
        simp only [true_iff]
        exact ⟨t, rfl, hs, hdm, hss, fun e he => by rw [hend] at he; cases he⟩
      · rintro t' ht' -
        cases ht'
        exact ⟨hsucc, hsuccStore⟩
      · intro hno
        exact absurd ⟨t, rfl, hs, hdm, hss,
          fun e he => by rw [hend] at he; cases he⟩ hno
    | some e =>
      dsimp only
      by_cases hlt : now > e
      case pos =>
        rw [if_pos hlt]
        refine ⟨?_, ?_, ?_⟩
        · simp only [Bool.false_eq_true, false_iff]
          rintro ⟨t', ht', -, -, -, h4⟩
          cases ht'
          have := h4 e hend
          omega
        · rintro t' ht' ⟨-, -, -, h4⟩
          cases ht'
          have := h4 e hend
          omega
        · intro _
          exact ⟨rfl, datesOf_updateTenant_expire store t.id now⟩
      case neg =>
        rw [if_neg hlt]
        refine ⟨?_, ?_, ?_⟩
        · rw [hsucc]
          simp only [true_iff]
          exact ⟨t, rfl, hs, hdm, hss,
            fun e' he' => by rw [hend] at he'; cases he'; omega⟩
        · rintro t' ht' -
          cases ht'
          exact ⟨hsucc, hsuccStore⟩
        · intro hno
          exact absurd ⟨t, rfl, hs, hdm, hss,
            fun e' he' => by rw [hend] at he'; cases he'; omega⟩ hno

/-- A concrete tenant that passes every verification step, for the C1
witness. -/
def validTenant : Tenant :=
  { id := "t9", companyName := "Blooms", websiteDomain := "shop.example.com",
    licenseKey := "LIC-1111-2222-3333-4444-5555-6666", status := "active",
    subscriptionType := "yearly", subscriptionStatus := "active",
    subscriptionEndDate := some 1000, lastAccessDate := none,
    lastVerificationDate := none, licenseVerified := "no", notes := none,
    updatedAt := 0 }

/-- C1 witness: the verification-success equivalence applied to a concrete
store at a time before the end date. -/
theorem post_verify_valid_iff_witness :
    (postVerify [validTenant] 500
        (some "LIC-1111-2222-3333-4444-5555-6666")
        (some "shop.example.com") "1.2.3.4" "agent").1.valid = true :=
  ((post_verify_valid_iff [validTenant] 500
      "LIC-1111-2222-3333-4444-5555-6666" "shop.example.com" "1.2.3.4" "agent"
      (by decide) (by decide)).1).2
    ⟨validTenant, by decide, rfl, by decide, rfl,
      fun e he => by cases he; decide⟩

/-! ### C6: exactly one log entry per full verification -/

/-- C6 counterexample: a POST request with a missing license key is rejected
with 400 before any log insert, so it produces zero `VerificationLogEntry`
rows, not one. -/
theorem post_verify_missing_fields_no_log :
    (postVerify [] 0 none (some "shop.example.com") "1.2.3.4" "ua").2.2 = []
  ∧ (postVerify [] 0 none (some "shop.example.com") "1.2.3.4" "ua").1.httpStatus
      = 400 := by decide

/-- C6 (amended): every full POST verification whose body carries both fields
(the 400 missing-fields path inserts no row) writes exactly one
`VerificationLogEntry`, recording the submitted key, the canonicalized
requesting domain, IP, user agent, and the matched tenant id (or `unknown`). -/
theorem post_verify_logs_exactly_one (store : List Tenant) (now : Int)
    (key dom ip ua : String) (hk : key ≠ "") (hd : dom ≠ "") :
    ∃ entry : LogEntry,
      (postVerify store now (some key) (some dom) ip ua).2.2 = [entry]
      ∧ entry.licenseKey = key
      ∧ entry.requestDomain = extractDomain dom
      ∧ entry.requestIp = ip
      ∧ entry.userAgent = ua
      ∧ (lookupByKey store key = none → entry.clientId = "unknown")
      ∧ (∀ t, lookupByKey store key = some t → entry.clientId = t.id) := by
  have hfk : falsyStr (some key) = false := falsyStr_some_eq_false hk
  have hfd : falsyStr (some dom) = false := falsyStr_some_eq_false hd
  unfold postVerify
  rw [hfk, hfd]
  simp only [Bool.or_self, Bool.false_eq_true, if_false, Option.getD_some]
  cases hfind : lookupByKey store key with
  | none =>
    exact ⟨_, rfl, rfl, rfl, rfl, rfl, fun _ => rfl, fun t' ht' => by simp at ht'⟩
  | some t =>
    dsimp only
    by_cases hs : t.status = "active"
    case neg =>
      rw [if_pos (by exact fun hh => hs hh)]
      exact ⟨_, rfl, rfl, rfl, rfl, rfl, fun hh => by simp at hh,
        fun t' ht' => by cases ht'; rfl⟩
    case pos =>
    rw [if_neg (by exact fun hh => hh hs)]
    by_cases hdm : extractDomain dom = extractDomain t.websiteDomain
    case neg =>
      rw [if_pos (by exact fun hh => hdm hh)]
      exact ⟨_, rfl, rfl, rfl, rfl, rfl, fun hh => by simp at hh,
        fun t' ht' => by cases ht'; rfl⟩
    case pos =>
    rw [if_neg (by exact fun hh => hh hdm)]
    by_cases hss : t.subscriptionStatus = "active"
    case neg =>
      rw [if_pos (by exact fun hh => hss hh)]
      exact ⟨_, rfl, rfl, rfl, rfl, rfl, fun hh => by simp at hh,
        fun t' ht' => by cases ht'; rfl⟩
    case pos =>
    rw [if_neg (by exact fun hh => hh hss)]
    cases hend : t.subscriptionEndDate with
    | none =>
      exact ⟨_, rfl, rfl, rfl, rfl, rfl, fun hh => by simp at hh,
        fun t' ht' => by cases ht'; rfl⟩
    | some e =>
      dsimp only
      by_cases hlt : now > e
      case pos =>
        rw [if_pos hlt]
        exact ⟨_, rfl, rfl, rfl, rfl, rfl, fun hh => by simp at hh,
          fun t' ht' => by cases ht'; rfl⟩
      case neg =>
        rw [if_neg hlt]
        exact ⟨_, rfl, rfl, rfl, rfl, rfl, fun hh => by simp at hh,
          fun t' ht' => by cases ht'; rfl⟩

/-- C6 witness: the one-log theorem applied to a concrete store (a failing
lookup, which still logs exactly once). -/
theorem post_verify_logs_exactly_one_witness :
    ∃ entry : LogEntry,
      (postVerify [] 0 (some "LIC-NOPE") (some "x.com") "1.2.3.4" "ua").2.2
        = [entry]
      ∧ entry.licenseKey = "LIC-NOPE"
      ∧ entry.requestDomain = extractDomain "x.com"
      ∧ entry.requestIp = "1.2.3.4"
      ∧ entry.userAgent = "ua"
      ∧ (lookupByKey [] "LIC-NOPE" = none → entry.clientId = "unknown")
      ∧ (∀ t, lookupByKey [] "LIC-NOPE" = some t → entry.clientId = t.id) :=
  post_verify_logs_exactly_one [] 0 "LIC-NOPE" "x.com" "1.2.3.4" "ua"
    (by decide) (by decide)

/-! ### C2: expiry flip and idempotence -/

/-- A concrete tenant with an elapsed end date, for the C2 counterexample and
witness. -/
def expiredTenant : Tenant :=
  { id := "t2", companyName := "Late Ltd", websiteDomain := "late.example.com",
    licenseKey := "LIC-9999-8888-7777-6666-5555-4444", status := "active",
    subscriptionType := "monthly", subscriptionStatus := "active",
    subscriptionEndDate := some 100, lastAccessDate := none,
    lastVerificationDate := none, licenseVerified := "no", notes := none,
    updatedAt := 0 }

/-- C2 counterexample: the second immediate verification does return
`valid:false`, but not "with the same error message": the first returns
"Subscription has expired" (expiry check), the second "Subscription is
expired" (subscription-status gate). -/
theorem post_verify_expiry_messages_differ :
    (postVerify [expiredTenant] 200
        (some "LIC-9999-8888-7777-6666-5555-4444")
        (some "late.example.com") "1.2.3.4" "ua").1.error
      = some "Subscription has expired"
  ∧ (postVerify
        (postVerify [expiredTenant] 200
          (some "LIC-9999-8888-7777-6666-5555-4444")
          (some "late.example.com") "1.2.3.4" "ua").2.1 200
        (some "LIC-9999-8888-7777-6666-5555-4444")
        (some "late.example.com") "1.2.3.4" "ua").1.error
      = some "Subscription is expired"
  ∧ ("Subscription is expired" : String) ≠ "Subscription has expired" := by
  decide

/-- C2 (amended): for a tenant passing the earlier steps whose end date is
strictly past, the first full verification persistently flips
`subscriptionStatus` to `expired` and returns `valid:false` HTTP 402 with
"Subscription has expired"; a second immediate verification also returns
`valid:false` HTTP 402, but from the subscription-status gate with the
different message "Subscription is expired". -/
theorem post_verify_expiry_flip_idempotent (store : List Tenant)
    (now now2 : Int) (key dom ip ua : String) (t : Tenant) (e : Int)
    (hk : key ≠ "") (hd : dom ≠ "")
    (hfind : lookupByKey store key = some t)
    (hs : t.status = "active")
    (hdm : extractDomain dom = extractDomain t.websiteDomain)
    (hss : t.subscriptionStatus = "active")
    (hend : t.subscriptionEndDate = some e)
    (hlt : now > e) :
    (postVerify store now (some key) (some dom) ip ua).1
      = { valid := false, error := some "Subscription has expired",
          client := none, httpStatus := 402 }
  ∧ lookupByKey (postVerify store now (some key) (some dom) ip ua).2.1 key
      = some (expireSub now t)
  ∧ (expireSub now t).subscriptionStatus = "expired"
  ∧ (postVerify (postVerify store now (some key) (some dom) ip ua).2.1 now2
        (some key) (some dom) ip ua).1
      = { valid := false, error := some "Subscription is expired",
          client := none, httpStatus := 402 } := by
  have hfk : falsyStr (some key) = false := falsyStr_some_eq_false hk
  have hfd : falsyStr (some dom) = false := falsyStr_some_eq_false hd
  have h1 : postVerify store now (some key) (some dom) ip ua
      = ({ valid := false, error := some "Subscription has expired",
           client := none, httpStatus := 402 },
         updateTenant store t.id (expireSub now),
         [mkLog t.id key (extractDomain dom) ip ua "expired"
            (some "Subscription expired")]) := by
    unfold postVerify
    rw [hfk, hfd]
    simp only [Bool.or_self, Bool.false_eq_true, if_false, Option.getD_some]
    rw [hfind]
    dsimp only
    rw [if_neg (by exact fun hh => hh hs), if_neg (by exact fun hh => hh hdm),
      if_neg (by exact fun hh => hh hss), hend]
    dsimp only
    rw [if_pos hlt]
  have h2 : lookupByKey (updateTenant store t.id (expireSub now)) key
      = some (expireSub now t) := by
    rw [lookupByKey_updateTenant store key t.id (expireSub now)
      (fun u => rfl), hfind]
    simp
  refine ⟨by rw [h1], by rw [h1]; exact h2, rfl, ?_⟩
  rw [h1]
  show (postVerify (updateTenant store t.id (expireSub now)) now2
      (some key) (some dom) ip ua).1 = _
  unfold postVerify
  rw [hfk, hfd]
  simp only [Bool.or_self, Bool.false_eq_true, if_false, Option.getD_some]
  rw [h2]
  dsimp only
  rw [if_neg (by exact fun hh => hh hs),
    if_neg (by exact fun hh => hh hdm),
    if_pos (by show ¬ (expireSub now t).subscriptionStatus = "active"
               intro hh
               simp [expireSub] at hh)]
  rfl

/-- C2 witness: the flip-and-idempotence theorem applied to the concrete
expired tenant at time 200 (end date 100). -/
theorem post_verify_expiry_flip_idempotent_witness :
    (postVerify [expiredTenant] 200
        (some "LIC-9999-8888-7777-6666-5555-4444")
        (some "late.example.com") "1.2.3.4" "ua").1
      = { valid := false, error := some "Subscription has expired",
          client := none, httpStatus := 402 }
  ∧ lookupByKey
      (postVerify [expiredTenant] 200
        (some "LIC-9999-8888-7777-6666-5555-4444")
        (some "late.example.com") "1.2.3.4" "ua").2.1
      "LIC-9999-8888-7777-6666-5555-4444"
      = some (expireSub 200 expiredTenant)
  ∧ (expireSub 200 expiredTenant).subscriptionStatus = "expired"
  ∧ (postVerify
        (postVerify [expiredTenant] 200
          (some "LIC-9999-8888-7777-6666-5555-4444")
          (some "late.example.com") "1.2.3.4" "ua").2.1 200
        (some "LIC-9999-8888-7777-6666-5555-4444")
        (some "late.example.com") "1.2.3.4" "ua").1
      = { valid := false, error := some "Subscription is expired",
          client := none, httpStatus := 402 } :=
  post_verify_expiry_flip_idempotent [expiredTenant] 200 200
    "LIC-9999-8888-7777-6666-5555-4444" "late.example.com" "1.2.3.4" "ua"
    expiredTenant 100 (by decide) (by decide) (by decide) rfl (by decide)
    rfl rfl (by decide)

/-! ### C3: GET vs POST status codes -/

/-- The one situation where the two pipelines order their checks differently:
tenant found, account active, subscription not active, and the canonical
domains differ.  `GET` tests the subscription gate before the domain binding;
`POST` tests the domain binding first. -/
def getPostDivergence (store : List Tenant) (license domain : Option String) :
    Bool :=
  !falsyStr license && !falsyStr domain &&
    (match lookupByKey store (license.getD "") with
     | some t => decide (t.status = "active")
         && !decide (t.subscriptionStatus = "active")
         && !decide (extractDomain (domain.getD "")
              = extractDomain t.websiteDomain)
     | none => false)

/-- A concrete tenant with a cancelled subscription, for the C3
counterexample and witness. -/
def cancelledTenant : Tenant :=
  { id := "t3", companyName := "Gone GmbH", websiteDomain := "gone.example.com",
    licenseKey := "LIC-3333-3333-3333-3333-3333-3333", status := "active",
    subscriptionType := "monthly", subscriptionStatus := "cancelled",
    subscriptionEndDate := none, lastAccessDate := none,
    lastVerificationDate := none, licenseVerified := "no", notes := none,
    updatedAt := 0 }

/-- C3 counterexample: for a tenant with a cancelled subscription queried from
the wrong domain, the lightweight GET check returns 402 (it tests the
subscription before the domain) while the full POST verification returns 403
(it tests the domain first) — the status codes are not the same. -/
theorem get_post_status_codes_differ :
    (getVerify [cancelledTenant] 0
        (some "LIC-3333-3333-3333-3333-3333-3333")
        (some "other.example.com")).httpStatus = 402
  ∧ (postVerify [cancelledTenant] 0
        (some "LIC-3333-3333-3333-3333-3333-3333")
        (some "other.example.com") "1.2.3.4" "ua").1.httpStatus = 403 := by
  decide

/-- C3 (amended): the read-only GET check (embedded without store or log
outputs, so it writes nothing) returns the same HTTP status as the full POST
verification on every input except when the tenant is found and active with
an inactive subscription AND a mismatched domain, where GET answers 402 but
POST answers 403. -/
theorem get_verify_status_matches_post (store : List Tenant) (now : Int)
    (license domain : Option String) (ip ua : String) :
    (getPostDivergence store license domain = true →
      (getVerify store now license domain).httpStatus = 402
      ∧ (postVerify store now license domain ip ua).1.httpStatus = 403)
  ∧ (getPostDivergence store license domain = false →
      (getVerify store now license domain).httpStatus
        = (postVerify store now license domain ip ua).1.httpStatus) := by
  unfold getVerify postVerify getPostDivergence
  cases hfl : falsyStr license with
  | true => simp [hfl]
  | false =>
  cases hfd : falsyStr domain with
  | true => simp [hfd]
  | false =>
  simp only [hfl, hfd, Bool.or_self, Bool.false_eq_true, if_false,
    Bool.not_false, Bool.true_and]
  cases hfind : lookupByKey store (license.getD "") with
  | none =>
    dsimp only
    exact ⟨fun hh => by simp at hh, fun _ => rfl⟩
  | some t =>
    dsimp only
    by_cases hs : t.status = "active"
    case neg =>
      rw [if_pos (show t.status ≠ "active" from fun hh => hs hh),
        if_pos (show t.status ≠ "active" from fun hh => hs hh)]
      exact ⟨fun hh => by simp [hs] at hh, fun _ => rfl⟩
    case pos =>
    rw [if_neg (show ¬ t.status ≠ "active" from fun hh => hh hs),
      if_neg (show ¬ t.status ≠ "active" from fun hh => hh hs)]
    by_cases hss : t.subscriptionStatus = "active"
    case pos =>
      rw [if_neg (show ¬ t.subscriptionStatus ≠ "active" from fun hh => hh hss)]
      by_cases hdm : extractDomain (domain.getD "")
          = extractDomain t.websiteDomain
      case pos =>
        rw [if_neg (show ¬ extractDomain (domain.getD "")
              ≠ extractDomain t.websiteDomain from fun hh => hh hdm),
          if_neg (show ¬ extractDomain (domain.getD "")
              ≠ extractDomain t.websiteDomain from fun hh => hh hdm),
          if_neg (show ¬ t.subscriptionStatus ≠ "active" from
            fun hh => hh hss)]
        cases hend : t.subscriptionEndDate with
        | none => exact ⟨fun hh => by simp [hss] at hh, fun _ => rfl⟩
        | some e =>
          dsimp only
          by_cases hlt : now > e
          case pos =>
            rw [if_pos hlt, if_pos hlt]
            exact ⟨fun hh => by simp [hss] at hh, fun _ => rfl⟩
          case neg =>
            rw [if_neg hlt, if_neg hlt]
            exact ⟨fun hh => by simp [hss] at hh, fun _ => rfl⟩
      case neg =>
        rw [if_pos (show extractDomain (domain.getD "")
              ≠ extractDomain t.websiteDomain from fun hh => hdm hh),
          if_pos (show extractDomain (domain.getD "")
              ≠ extractDomain t.websiteDomain from fun hh => hdm hh)]
        exact ⟨fun hh => by simp [hss] at hh, fun _ => rfl⟩
    case neg =>
      rw [if_pos (show t.subscriptionStatus ≠ "active" from
        fun hh => hss hh)]
      by_cases hdm : extractDomain (domain.getD "")
          = extractDomain t.websiteDomain
      case pos =>
        rw [if_neg (show ¬ extractDomain (domain.getD "")
              ≠ extractDomain t.websiteDomain from fun hh => hh hdm),
          if_pos (show t.subscriptionStatus ≠ "active" from
            fun hh => hss hh)]
        exact ⟨fun hh => by simp [hdm] at hh, fun _ => rfl⟩
      case neg =>
        rw [if_pos (show extractDomain (domain.getD "")
              ≠ extractDomain t.websiteDomain from fun hh => hdm hh)]
        refine ⟨fun _ => ⟨rfl, rfl⟩, fun hh => ?_⟩
        simp [hs, hss, hdm] at hh

/-- C3 witness: the divergent case of the comparison theorem, applied to the
concrete cancelled tenant queried from the wrong domain. -/
theorem get_verify_status_matches_post_witness :
    (getVerify [cancelledTenant] 0
        (some "LIC-3333-3333-3333-3333-3333-3333")
        (some "wrong.example.com")).httpStatus = 402
  ∧ (postVerify [cancelledTenant] 0
        (some "LIC-3333-3333-3333-3333-3333-3333")
        (some "wrong.example.com") "9.9.9.9" "probe").1.httpStatus = 403 :=
  (get_verify_status_matches_post [cancelledTenant] 0
      (some "LIC-3333-3333-3333-3333-3333-3333")
      (some "wrong.example.com") "9.9.9.9" "probe").1 (by decide)

/-! ### C8: HMAC signature -/

lemma sha256_length (msg : List Nat) : (sha256 msg).length = 32 := by
  unfold sha256
  dsimp only
  rw [List.length_flatten, List.map_map]
  rfl

lemma hmacSha256_length (key msg : List Nat) :
    (hmacSha256 key msg).length = 32 :=
  sha256_length _

/-- C8: `createHmacSignature` is exactly the lowercase hex encoding of
HMAC-SHA256 over `"{timestamp}:{path}:{query}:{body}"` (body defaulting to
`""`); it is deterministic, 64 characters long, and entirely lowercase hex.
(The SHA-256/HMAC embedding is validated against FIPS 180-4 and RFC 4231
test vectors above.) -/
theorem create_hmac_signature_spec (secret ts path search body : String) :
    createHmacSignature secret ts path search body
      = hexLowerStr (hmacSha256 (utf8Bytes secret)
          (utf8Bytes (ts ++ ":" ++ path ++ ":" ++ search ++ ":" ++ body)))
  ∧ createHmacSignature secret ts path search
      = createHmacSignature secret ts path search ""
  ∧ createHmacSignature secret ts path search body
      = createHmacSignature secret ts path search body
  ∧ (createHmacSignature secret ts path search body).length = 64
  ∧ ∀ c ∈ (createHmacSignature secret ts path search body).data,
      c ∈ hexDigits := by
  refine ⟨rfl, rfl, rfl, ?_, ?_⟩
  · show (bytesToHexChars (hmacSha256 (utf8Bytes secret) _)).length = 64
    rw [bytesToHexChars_length, hmacSha256_length]
  · intro c hc
    exact bytesToHexChars_mem hc

end SaasAdmin
